import Mathlib

/-!
Shallow embedding of the chotu-dairy-backend routes (src/app/route.py,
src/app/models.py, src/app/schemas.py) together with the parts of Python's
`datetime.date` / `calendar` modules that the routes use.

Conventions of the embedding:
* Calendar dates are proleptic-Gregorian triples (year, month, day), exactly
  as in Python's `datetime.date`; `toordinal`, `weekday` and `isoweekday`
  follow CPython's `_ymd2ord` arithmetic.
* Monetary values (`Float` in the source) are modelled as exact rationals.
* The SQL database is modelled as in-memory lists of rows plus the identity
  sequences that assign primary keys; `SELECT ... GROUP BY k` is modelled by
  listing the distinct keys and summing the matching rows, and Python's
  `dict` buckets are modelled by folds that mirror the `+=` / `=` updates of
  the source.
* A route that raises `HTTPException(status, detail)` returns
  `Except.error (RouteErr.http status detail)`; an uncaught Python exception
  (which FastAPI surfaces as a generic 500 server error, not a 400
  bad-request response) is `RouteErr.pythonError name`.
-/

namespace ChotuDairy

/-! ## Calendar arithmetic (Python `datetime` / `calendar`) -/

/-- Python `calendar.isleap`. -/
def isleap (y : Int) : Bool :=
  y % 4 == 0 && (y % 100 != 0 || y % 400 == 0)

/-- Python `calendar.mdays` (index 0 unused). -/
def month_days_table : List Nat :=
  [0, 31, 28, 31, 30, 31, 30, 31, 31, 30, 31, 30, 31]

/-- Number of days of a month, as computed by `calendar.monthrange(y, m)[1]`
for `1 ≤ m ≤ 12`: `mdays[m] + (m == 2 and isleap(y))`. -/
def days_in_month (y : Int) (m : Nat) : Nat :=
  month_days_table.getD m 0 + (if m == 2 && isleap y then 1 else 0)

/-- CPython `datetime._DAYS_BEFORE_MONTH` (index 0 unused, set to 0 here). -/
def days_before_month_table : List Nat :=
  [0, 0, 31, 59, 90, 120, 151, 181, 212, 243, 273, 304, 334]

/-- CPython `datetime._days_before_month`. -/
def days_before_month (y : Int) (m : Nat) : Nat :=
  days_before_month_table.getD m 0 + (if 2 < m && isleap y then 1 else 0)

/-- CPython `datetime._days_before_year` (valid for `y ≥ 1`). -/
def days_before_year (y : Nat) : Nat :=
  (y - 1) * 365 + (y - 1) / 4 - (y - 1) / 100 + (y - 1) / 400

/-- A Python `datetime.date` value: a (year, month, day) triple. -/
structure PyDate where
  year : Nat
  month : Nat
  day : Nat
deriving DecidableEq

/-- A date is an actual calendar date (what `datetime.date` can hold). -/
def ValidDate (d : PyDate) : Prop :=
  1 ≤ d.year ∧ 1 ≤ d.month ∧ d.month ≤ 12 ∧ 1 ≤ d.day ∧
    d.day ≤ days_in_month (d.year : Int) d.month

instance (d : PyDate) : Decidable (ValidDate d) := by
  unfold ValidDate; infer_instance

/-- CPython `date.toordinal` (`_ymd2ord`): day 1 is 0001-01-01. -/
def toordinal (d : PyDate) : Nat :=
  days_before_year d.year + days_before_month (d.year : Int) d.month + d.day

/-- CPython `date.weekday`: Monday = 0 … Sunday = 6. -/
def weekday (d : PyDate) : Nat :=
  (toordinal d + 6) % 7

/-- CPython `date.isoweekday`: Monday = 1 … Sunday = 7. -/
def isoweekday (d : PyDate) : Nat :=
  weekday d + 1

/-- SQL comparison of two `DATE` values (chronological order). -/
def dateLe (a b : PyDate) : Bool :=
  decide (toordinal a ≤ toordinal b)

/-- `[calendar.day_name[w][:3] for w in 0..6]` (Monday-first). -/
def day_abbrs : List String :=
  ["Mon", "Tue", "Wed", "Thu", "Fri", "Sat", "Sun"]

/-- `calendar.day_name[d.weekday()][:3]` as used by the weekly route. -/
def dayAbbr (d : PyDate) : String :=
  day_abbrs.getD (weekday d) ("")

/-- `list(calendar.month_abbr)`: index 0 is the empty string. -/
def month_abbr : List String :=
  ["", "Jan", "Feb", "Mar", "Apr", "May", "Jun",
   "Jul", "Aug", "Sep", "Oct", "Nov", "Dec"]

/-- The fixed Sun → Sat output order of the weekly route. -/
def ordered_days : List String :=
  ["Sun", "Mon", "Tue", "Wed", "Thu", "Fri", "Sat"]

/-- `ordered_months = list(calendar.month_abbr)[1:]`. -/
def ordered_months : List String :=
  month_abbr.drop 1

/-! ## Data model (src/app/models.py, src/app/schemas.py) -/

/-- A row of the `products` table. -/
structure Product where
  id : Nat
  product_name : String
  price : Rat
deriving DecidableEq

/-- A row of the `sales` table. -/
structure Sale where
  id : Nat
  name : String
  product_id : Nat
  quantity : Int
  total_price : Rat
  date : PyDate
deriving DecidableEq

/-- Request body of `POST /products` (schema `ProductCreate`). -/
structure ProductCreate where
  product_name : String
  price : Rat
deriving DecidableEq

/-- Request body of `POST /sales` (schema `SalesCreate`). -/
structure SalesCreate where
  name : String
  product_id : Nat
  quantity : Int
  date : PyDate
  total_price : Rat
deriving DecidableEq

/-- The database state: both tables plus their primary-key sequences. -/
structure Store where
  products : List Product
  sales : List Sale
  next_product_id : Nat
  next_sale_id : Nat
deriving DecidableEq

def emptyStore : Store :=
  { products := [], sales := [], next_product_id := 1, next_sale_id := 1 }

/-- How a route call fails: an `HTTPException(status, detail)` raised by the
route itself, or an uncaught Python exception (surfaced by the framework as a
generic server error, not as a 400 response). -/
inductive RouteErr where
  | http (status : Nat) (detail : String)
  | pythonError (exc : String)
deriving DecidableEq

/-! ## Aggregation helpers shared by the reporting routes -/

/-- `SUM(total_price)` over a list of sales rows (`SUM` of no rows is `NULL`,
which every route converts to `0` before use, so the empty sum is 0). -/
def sumTotal (l : List Sale) : Rat :=
  (l.map (fun s => s.total_price)).sum

/-- `WHERE sales.date BETWEEN a AND b` on the sales table. -/
def salesBetween (db : Store) (a b : PyDate) : List Sale :=
  db.sales.filter (fun s => dateLe a s.date && dateLe s.date b)

/-- `SELECT date, SUM(total_price) ... GROUP BY date`: one pair per distinct
date occurring in `l`, carrying the sum of the matching rows. -/
def groupByDate (l : List Sale) : List (PyDate × Rat) :=
  ((l.map (fun s => s.date)).dedup).map
    (fun d => (d, sumTotal (l.filter (fun s => s.date == d))))

/-- `SELECT EXTRACT(month, date), SUM(total_price) ... GROUP BY EXTRACT(month, date)`. -/
def groupByMonth (l : List Sale) : List (Nat × Rat) :=
  ((l.map (fun s => s.date.month)).dedup).map
    (fun m => (m, sumTotal (l.filter (fun s => s.date.month == m))))

/-! ## Routes (src/app/route.py) -/

/-- `POST /products` (`create_product`): persists the product as given; the
source performs no validation of `product_name` or `price`. -/
def create_product (product : ProductCreate) (db : Store) : Product × Store :=
  let new_product : Product :=
    { id := db.next_product_id
      product_name := product.product_name
      price := product.price }
  (new_product,
   { db with
       products := db.products ++ [new_product]
       next_product_id := db.next_product_id + 1 })

/-- `POST /sales` (`create_sale`): 404 if the referenced product does not
exist, otherwise the sale is persisted exactly as supplied. -/
def create_sale (sale : SalesCreate) (db : Store) : Except RouteErr Sale × Store :=
  match db.products.find? (fun p => p.id == sale.product_id) with
  | none => (.error (.http 404 ("Product not found")), db)
  | some _ =>
    let new_sale : Sale :=
      { id := db.next_sale_id
        name := sale.name
        product_id := sale.product_id
        quantity := sale.quantity
        total_price := sale.total_price
        date := sale.date }
    (.ok new_sale,
     { db with
         sales := db.sales ++ [new_sale]
         next_sale_id := db.next_sale_id + 1 })

/-- `DELETE /products/{product_id}` (`delete_product`). -/
def delete_product (product_id : Nat) (db : Store) : Except RouteErr String × Store :=
  match db.products.find? (fun p => p.id == product_id) with
  | none => (.error (.http 404 ("Product not found")), db)
  | some _ =>
    match db.sales.find? (fun s => s.product_id == product_id) with
    | some _ =>
      (.error (.http 400 ("Cannot delete: Product is used in sales records")), db)
    | none =>
      (.ok ("Product deleted successfully"),
       { db with products := db.products.filter (fun p => !(p.id == product_id)) })

/-- The `weekday_totals` dict of the weekly route: all seven buckets start at
0 and each per-date group adds (`+=`) its sum into the bucket of its weekday. -/
def weekdayTotal (groups : List (PyDate × Rat)) (day : String) : Rat :=
  groups.foldl (fun acc g => if dayAbbr g.1 == day then acc + g.2 else acc) 0

/-- `GET /sales/graph/weekly` (`get_weekly_sales`). -/
def get_weekly_sales (start_date end_date : PyDate) (db : Store) :
    Except RouteErr (List (String × Rat)) :=
  if isoweekday start_date != 7 then
    .error (.http 400 ("Start date must be a Sunday"))
  else if isoweekday end_date != 6 then
    .error (.http 400 ("End date must be a Saturday"))
  else if (toordinal end_date : Int) - (toordinal start_date : Int) != 6 then
    .error (.http 400 ("Dates must form a full week (Sunday → Saturday)"))
  else
    let results := groupByDate (salesBetween db start_date end_date)
    .ok (ordered_days.map (fun day => (day, weekdayTotal results day)))

/-- `calendar.monthrange(year, month)[1]`: raises `IllegalMonthError` (an
uncaught exception in this codebase) unless `1 ≤ month ≤ 12`. -/
def monthrange_days (year month : Int) : Except RouteErr Nat :=
  if month < 1 || 12 < month then .error (.pythonError ("IllegalMonthError"))
  else .ok (days_in_month year month.toNat)

/-- The key set of the `day_totals` dict: initialized to `"1" .. "N"` (kept
here as the numbers 1..N), and `day_totals[day_str] = total` inserts a fresh
key whenever `day_str` is not already present. -/
def day_totals_keys (groups : List (PyDate × Rat)) (num_days : Nat) : List Nat :=
  groups.foldl
    (fun ks g => if ks.contains g.1.day then ks else ks ++ [g.1.day])
    (List.range' 1 num_days)

/-- The value of `day_totals[str(k)]`: 0 initially, overwritten (`=`, not
`+=`) by each per-date group whose day-of-month is `k`. -/
def day_total_val (groups : List (PyDate × Rat)) (k : Nat) : Rat :=
  groups.foldl (fun acc g => if g.1.day == k then g.2 else acc) 0

/-- `GET /sales/graph/monthly` (`get_monthly_sales`); the final response
iterates `sorted(day_totals.keys(), key=int)` (Python's stable sort). -/
def get_monthly_sales (year month : Int) (db : Store) :
    Except RouteErr (List (String × Rat)) :=
  match monthrange_days year month with
  | .error e => .error e
  | .ok num_days =>
    let results := groupByDate (db.sales.filter
      (fun s => ((s.date.year : Int) == year) && ((s.date.month : Int) == month)))
    let keys := day_totals_keys results num_days
    .ok ((keys.insertionSort (· ≤ ·)).map
      (fun k => (toString k, day_total_val results k)))

/-- The value of `month_totals[calendar.month_abbr[m]]`: 0 initially,
overwritten by the per-month group whose abbreviation matches. -/
def month_total_val (groups : List (Nat × Rat)) (ab : String) : Rat :=
  groups.foldl (fun acc g => if month_abbr.getD g.1 ("") == ab then g.2 else acc) 0

/-- `GET /sales/graph/yearly` (`get_yearly_sales`). -/
def get_yearly_sales (year : Int) (db : Store) :
    Except RouteErr (List (String × Rat)) :=
  if year < 1900 || 2100 < year then .error (.http 400 ("Invalid year"))
  else
    let results := groupByMonth (db.sales.filter
      (fun s => (s.date.year : Int) == year))
    .ok (ordered_months.map (fun ab => (ab, month_total_val results ab)))

/-- Response shape of `GET /sales/summary`. -/
structure SummaryOut where
  today : Rat
  week : Rat
  month : Rat
  year : Rat
deriving DecidableEq

/-- Ordinal of `start_of_week` in `get_sales_summary`:
`today - timedelta(days=today.weekday() + 1 if today.weekday() != 6 else 0)`. -/
def week_start_ord (today : PyDate) : Int :=
  (toordinal today : Int) -
    (if weekday today != 6 then (weekday today : Int) + 1 else 0)

/-- `GET /sales/summary` (`get_sales_summary`), with the current date passed
explicitly; date ± timedelta is represented by its ordinal. -/
def get_sales_summary (today : PyDate) (db : Store) : SummaryOut :=
  let daily_total := sumTotal (db.sales.filter (fun s => s.date == today))
  let start_of_week := week_start_ord today
  let end_of_week := start_of_week + 6
  let weekly_total := sumTotal (db.sales.filter (fun s =>
    decide (start_of_week ≤ (toordinal s.date : Int)) &&
    decide ((toordinal s.date : Int) ≤ end_of_week)))
  let start_of_month : PyDate := { today with day := 1 }
  let last_day_of_month := days_in_month (today.year : Int) today.month
  let end_of_month : PyDate := { today with day := last_day_of_month }
  let monthly_total := sumTotal (db.sales.filter (fun s =>
    dateLe start_of_month s.date && dateLe s.date end_of_month))
  let start_of_year : PyDate := { today with month := 1, day := 1 }
  let end_of_year : PyDate := { today with month := 12, day := 31 }
  let yearly_total := sumTotal (db.sales.filter (fun s =>
    dateLe start_of_year s.date && dateLe s.date end_of_year))
  { today := daily_total
    week := weekly_total
    month := monthly_total
    year := yearly_total }

/-- One entry of the `GET /sales/top-products` response. -/
structure TopEntry where
  product_id : Nat
  product_name : String
  total_quantity : Int
  total_sales : Rat
deriving DecidableEq

/-- `FROM sales JOIN products ON sales.product_id = products.id`. -/
def joinList (ps : List Product) (ss : List Sale) : List (Sale × Product) :=
  ss.flatMap (fun s => (ps.filter (fun p => p.id == s.product_id)).map (fun p => (s, p)))

def joinRows (db : Store) : List (Sale × Product) :=
  joinList db.products db.sales

/-- The `GROUP BY sales.product_id, products.product_name` key of a joined row. -/
def topKey (r : Sale × Product) : Nat × String :=
  (r.1.product_id, r.2.product_name)

/-- The `GROUP BY` aggregation of `get_top_products`: one entry per distinct
(product_id, product_name) key of the joined rows, summing quantity and
total_price over the matching rows. -/
def topGroups (db : Store) : List TopEntry :=
  ((joinRows db).map topKey).dedup.map (fun k =>
    { product_id := k.1
      product_name := k.2
      total_quantity := (((joinRows db).filter (fun r => topKey r == k)).map
        (fun r => r.1.quantity)).sum
      total_sales := (((joinRows db).filter (fun r => topKey r == k)).map
        (fun r => r.1.total_price)).sum : TopEntry })

/-- `GET /sales/top-products` (`get_top_products`): group the joined rows,
sum quantity and total_price per key, `ORDER BY total_quantity DESC`
(tie order unspecified in SQL; a stable sort here), `LIMIT limit`. -/
def get_top_products (db : Store) (limit : Nat := 5) : List TopEntry :=
  ((topGroups db).insertionSort
    (fun a b => b.total_quantity ≤ a.total_quantity)).take limit

/-! ## Concrete stores used to instantiate the theorems -/

/-- The worked example of the spec: one product (Milk 1L, price 50) and one
sale of 3 units, total 150, on Sunday 2024-06-02. -/
def exampleStore : Store :=
  { products := [⟨1, "Milk 1L", 50⟩]
    sales := [⟨1, "walk-in", 1, 3, 150, ⟨2024, 6, 2⟩⟩]
    next_product_id := 2
    next_sale_id := 2 }

/-- Two products whose total sold quantities are 10 and 7. -/
def exampleStore2 : Store :=
  { products := [⟨1, "A", 5⟩, ⟨2, "B", 5⟩]
    sales := [⟨1, "s1", 1, 10, 100, ⟨2024, 6, 2⟩⟩,
              ⟨2, "s2", 2, 7, 70, ⟨2024, 6, 3⟩⟩]
    next_product_id := 3
    next_sale_id := 3 }

deriving instance DecidableEq for Except

/-! ## Generic lemmas about the fold-based dict updates -/

/-- Accumulating `+=` over the matching elements equals the sum of the
matching elements. -/
theorem foldl_add_filter {α M : Type _} [AddCommMonoid M] (p : α → Bool) (v : α → M) :
    ∀ (l : List α) (init : M),
      l.foldl (fun acc g => if p g then acc + v g else acc) init
        = init + ((l.filter p).map v).sum
  | [], init => by simp
  | a :: l, init => by
    by_cases h : p a
    · simp only [List.foldl_cons, h, if_true, List.filter_cons, List.map_cons,
        List.sum_cons, foldl_add_filter p v l (init + v a)]
      rw [add_assoc]
    · simp only [List.foldl_cons, h, if_false, List.filter_cons, Bool.false_eq_true,
        foldl_add_filter p v l init]

/-- An assigning fold over a list with no matching element keeps its
accumulator. -/
theorem foldl_assign_of_no_match {α M : Type _} (p : α → Bool) (v : α → M) :
    ∀ (l : List α) (init : M), (∀ a ∈ l, ¬ p a) →
      l.foldl (fun acc g => if p g then v g else acc) init = init
  | [], _, _ => rfl
  | a :: l, init, h => by
    have ha : ¬ p a := h a (by simp)
    simp only [List.foldl_cons, ha, if_false, Bool.false_eq_true]
    exact foldl_assign_of_no_match p v l init (fun b hb => h b (by simp [hb]))

/-- An assigning fold (`dict[k] = v`, not `+=`) over a list with at most one
matching element equals the sum of the matching elements. -/
theorem foldl_assign_single {α M : Type _} [AddCommMonoid M] (p : α → Bool) (v : α → M) :
    ∀ (l : List α), (l.filter p).length ≤ 1 →
      l.foldl (fun acc g => if p g then v g else acc) 0 = ((l.filter p).map v).sum
  | [], _ => rfl
  | a :: l, h => by
    by_cases ha : p a
    · have hnil : l.filter p = [] := by
        simp only [List.filter_cons, ha, if_true] at h
        cases hf : l.filter p with
        | nil => rfl
        | cons b t => rw [hf] at h; simp at h
      have hnone : ∀ b ∈ l, ¬ p b := List.filter_eq_nil_iff.mp hnil
      simp only [List.foldl_cons, ha, if_true, List.filter_cons, List.map_cons, List.sum_cons,
        hnil, List.map_nil, List.sum_nil, add_zero]
      exact foldl_assign_of_no_match p v l (v a) hnone
    · simp only [List.foldl_cons, ha, if_false, List.filter_cons, Bool.false_eq_true]
      apply foldl_assign_single p v l
      simpa [List.filter_cons, ha] using h

theorem sum_map_ite_of_not_mem {κ M : Type _} [DecidableEq κ] [AddCommMonoid M]
    (x : M) (c : κ) :
    ∀ (keys : List κ), c ∉ keys →
      (keys.map (fun k => if c = k then x else 0)).sum = 0
  | [], _ => rfl
  | k :: keys, h => by
    have h1 : c ≠ k := fun hc => h (by simp [hc])
    have h2 : c ∉ keys := fun hc => h (by simp [hc])
    simp only [List.map_cons, List.sum_cons, h1, if_false,
      sum_map_ite_of_not_mem x c keys h2, add_zero]

theorem sum_map_ite_of_mem {κ M : Type _} [DecidableEq κ] [AddCommMonoid M]
    (x : M) (c : κ) :
    ∀ (keys : List κ), keys.Nodup → c ∈ keys →
      (keys.map (fun k => if c = k then x else 0)).sum = x
  | [], _, hc => by simp at hc
  | k :: keys, hnd, hc => by
    rcases List.mem_cons.mp hc with h | h
    · subst h
      have hnotin : c ∉ keys := (List.nodup_cons.mp hnd).1
      simp only [List.map_cons, List.sum_cons,
        sum_map_ite_of_not_mem x c keys hnotin, add_zero]
      simp
    · have h1 : c ≠ k := by
        intro hck
        exact (List.nodup_cons.mp hnd).1 (hck ▸ h)
      simp only [List.map_cons, List.sum_cons, h1, if_false,
        sum_map_ite_of_mem x c keys (List.nodup_cons.mp hnd).2 h, zero_add]

/-- Partitioning a sum over a duplicate-free key list that covers every
element: summing the per-key filtered sums gives the total sum. The per-key
filter predicate `q` is abstract; it must test for key equality. -/
theorem sum_filter_partition {α κ M : Type _} [DecidableEq κ]
    [AddCommMonoid M] (f : α → κ) (v : α → M) (q : κ → α → Bool)
    (hq : ∀ (k : κ) (a : α), q k a = true ↔ f a = k) :
    ∀ (l : List α) (keys : List κ), keys.Nodup → (∀ a ∈ l, f a ∈ keys) →
      (keys.map (fun k => ((l.filter (q k)).map v).sum)).sum
        = (l.map v).sum
  | [], keys, _, _ => by simp
  | a :: l, keys, hnd, hmem => by
    have hstep : ∀ k : κ,
        (((a :: l).filter (q k)).map v).sum
          = (if f a = k then v a else 0) + ((l.filter (q k)).map v).sum := by
      intro k
      by_cases h : f a = k
      · have : q k a = true := (hq k a).mpr h
        simp [List.filter_cons, this, h]
      · have : ¬ q k a = true := fun hc => h ((hq k a).mp hc)
        simp [List.filter_cons, this, h]
    calc (keys.map (fun k => (((a :: l).filter (q k)).map v).sum)).sum
        = (keys.map (fun k =>
            (if f a = k then v a else 0) + ((l.filter (q k)).map v).sum)).sum := by
          rw [List.map_congr_left (fun k _ => hstep k)]
      _ = (keys.map (fun k => if f a = k then v a else 0)).sum
            + (keys.map (fun k => ((l.filter (q k)).map v).sum)).sum := by
          rw [List.sum_map_add]
      _ = v a + (l.map v).sum := by
          rw [sum_map_ite_of_mem (v a) (f a) keys hnd (hmem a (by simp)),
            sum_filter_partition f v q hq l keys hnd (fun b hb => hmem b (by simp [hb]))]
      _ = ((a :: l).map v).sum := by simp

/-- A duplicate-free list on which a predicate identifies elements has at
most one element satisfying it. -/
theorem filter_length_le_one {α : Type _} (p : α → Bool) :
    ∀ (l : List α), l.Nodup → (∀ a ∈ l, ∀ b ∈ l, p a → p b → a = b) →
      (l.filter p).length ≤ 1
  | [], _, _ => by simp
  | a :: l, hnd, huniq => by
    by_cases ha : p a
    · have hnil : l.filter p = [] := by
        apply List.filter_eq_nil_iff.mpr
        intro b hb hpb
        have : a = b := huniq a (by simp) b (by simp [hb]) ha hpb
        exact (List.nodup_cons.mp hnd).1 (this ▸ hb)
      simp [List.filter_cons, ha, hnil]
    · simp only [List.filter_cons, ha, if_false, Bool.false_eq_true]
      exact filter_length_le_one p l (List.nodup_cons.mp hnd).2
        (fun x hx y hy => huniq x (by simp [hx]) y (by simp [hy]))

/-- With duplicate-free keys, filtering for the key of a member yields
exactly that member. -/
theorem filter_eq_singleton_of_nodup_map {α β : Type _} [BEq β] [LawfulBEq β] (f : α → β) :
    ∀ (l : List α), (l.map f).Nodup → ∀ p ∈ l, l.filter (fun q => f q == f p) = [p]
  | [], _, p, hp => by simp at hp
  | a :: l, hnd, p, hp => by
    rcases List.mem_cons.mp hp with h | h
    · subst h
      have hnil : l.filter (fun q => f q == f p) = [] := by
        apply List.filter_eq_nil_iff.mpr
        intro b hb hfb
        have hfab : f p ∈ l.map f := by
          rw [← beq_iff_eq.mp hfb]
          exact List.mem_map_of_mem f hb
        exact (List.nodup_cons.mp (by simpa using hnd)).1 hfab
      simp [List.filter_cons, hnil]
    · have hfa : ¬ (f a == f p) = true := by
        intro hf
        have : f p ∈ l.map f := List.mem_map_of_mem f h
        rw [← beq_iff_eq.mp hf] at this
        exact (List.nodup_cons.mp (by simpa using hnd)).1 this
      simp only [List.filter_cons, hfa, if_false, Bool.false_eq_true]
      exact filter_eq_singleton_of_nodup_map f l (by simpa using (List.nodup_cons.mp (by simpa using hnd)).2) p h

/-! ## Lemmas about the grouping helpers -/

theorem weekday_lt_seven (d : PyDate) : weekday d < 7 :=
  Nat.mod_lt _ (by decide)

theorem dayAbbr_mem_aux : ∀ w, w < 7 → day_abbrs.getD w ("") ∈ ordered_days := by
  decide

theorem dayAbbr_mem (d : PyDate) : dayAbbr d ∈ ordered_days :=
  dayAbbr_mem_aux _ (weekday_lt_seven d)

theorem groupByDate_keys (l : List Sale) :
    (groupByDate l).map Prod.fst = (l.map (fun s => s.date)).dedup := by
  simp [groupByDate, List.map_map, Function.comp_def]

theorem groupByDate_nodup_keys (l : List Sale) :
    ((groupByDate l).map Prod.fst).Nodup := by
  rw [groupByDate_keys]
  exact List.nodup_dedup _

theorem groupByDate_mem {l : List Sale} {g : PyDate × Rat} (h : g ∈ groupByDate l) :
    (∃ s ∈ l, s.date = g.1) ∧ g.2 = sumTotal (l.filter (fun s => s.date == g.1)) := by
  rcases List.mem_map.mp h with ⟨d, hd, hg⟩
  have hd' : d ∈ l.map (fun s => s.date) := List.mem_dedup.mp hd
  rcases List.mem_map.mp hd' with ⟨s, hs, hsd⟩
  constructor
  · exact ⟨s, hs, by rw [hsd, ← hg]⟩
  · rw [← hg]

theorem groupByDate_snd_sum (l : List Sale) :
    ((groupByDate l).map Prod.snd).sum = sumTotal l := by
  have h : (groupByDate l).map Prod.snd
      = ((l.map (fun s => s.date)).dedup).map
          (fun d => ((l.filter (fun s => s.date == d)).map (fun s => s.total_price)).sum) := by
    simp [groupByDate, List.map_map, sumTotal]
  rw [h]
  exact sum_filter_partition (fun s => s.date) (fun s => s.total_price)
    (fun d s => s.date == d) (fun d s => by simp) l
    ((l.map (fun s => s.date)).dedup) (List.nodup_dedup _)
    (fun s hs => List.mem_dedup.mpr (List.mem_map_of_mem _ hs))

theorem groupByMonth_keys (l : List Sale) :
    (groupByMonth l).map Prod.fst = (l.map (fun s => s.date.month)).dedup := by
  simp [groupByMonth, List.map_map, Function.comp_def]

theorem groupByMonth_mem {l : List Sale} {g : Nat × Rat} (h : g ∈ groupByMonth l) :
    (∃ s ∈ l, s.date.month = g.1) ∧ g.2 = sumTotal (l.filter (fun s => s.date.month == g.1)) := by
  rcases List.mem_map.mp h with ⟨m, hm, hg⟩
  have hm' : m ∈ l.map (fun s => s.date.month) := List.mem_dedup.mp hm
  rcases List.mem_map.mp hm' with ⟨s, hs, hsm⟩
  constructor
  · exact ⟨s, hs, by rw [hsm, ← hg]⟩
  · rw [← hg]

/-- The weekday bucket of the weekly route is the sum of the per-date group
totals whose date falls on that weekday. -/
theorem weekdayTotal_eq_sum (groups : List (PyDate × Rat)) (day : String) :
    weekdayTotal groups day
      = ((groups.filter (fun g => dayAbbr g.1 == day)).map Prod.snd).sum := by
  unfold weekdayTotal
  rw [foldl_add_filter (fun g => dayAbbr g.1 == day) Prod.snd groups 0, zero_add]

/-! ## Claim theorems -/

set_option maxRecDepth 16000
set_option maxHeartbeats 1600000

/-- Claim C1 (code_bug evidence): `create_product` performs no validation at
all. Called with an empty `product_name` and a non-positive price it does not
fail; it persists the product and returns it, contradicting the required
`ValidationError` behavior. -/
theorem create_product_persists_without_validation :
    (create_product ⟨"", 0⟩ emptyStore).2.products
        = [{ id := 1, product_name := "", price := 0 }] ∧
    (create_product ⟨"", 0⟩ emptyStore).1
        = { id := 1, product_name := "", price := 0 } :=
  ⟨rfl, rfl⟩

/-- Claim C2 (counterexample): with start Sunday 2024-06-02 and end Saturday
2024-06-15 (13 days later), the route fails, but its message is
"Dates must form a full week (Sunday → Saturday)", not the claimed
"Dates must form a full week". -/
theorem weekly_full_week_message_counterexample :
    get_weekly_sales ⟨2024, 6, 2⟩ ⟨2024, 6, 15⟩ emptyStore =
      .error (.http 400 ("Dates must form a full week (Sunday → Saturday)")) ∧
    get_weekly_sales ⟨2024, 6, 2⟩ ⟨2024, 6, 15⟩ emptyStore ≠
      .error (.http 400 ("Dates must form a full week")) := by
  constructor
  · rfl
  · decide

/-- Claim C2 (amended): `weeklyTotals` fails with 400 "Start date must be a
Sunday" whenever start_date is not a Sunday; otherwise fails with 400 "End
date must be a Saturday" whenever end_date is not a Saturday; otherwise fails
with 400 "Dates must form a full week (Sunday → Saturday)" whenever end_date
is not exactly 6 days after start_date; and succeeds exactly when start_date
is a Sunday and end_date is the Saturday 6 days later. -/
theorem get_weekly_sales_validation (start_date end_date : PyDate) (db : Store) :
    (isoweekday start_date ≠ 7 →
      get_weekly_sales start_date end_date db =
        .error (.http 400 ("Start date must be a Sunday"))) ∧
    (isoweekday start_date = 7 → isoweekday end_date ≠ 6 →
      get_weekly_sales start_date end_date db =
        .error (.http 400 ("End date must be a Saturday"))) ∧
    (isoweekday start_date = 7 → isoweekday end_date = 6 →
      (toordinal end_date : Int) - (toordinal start_date : Int) ≠ 6 →
      get_weekly_sales start_date end_date db =
        .error (.http 400 ("Dates must form a full week (Sunday → Saturday)"))) ∧
    (isoweekday start_date = 7 → isoweekday end_date = 6 →
      (toordinal end_date : Int) - (toordinal start_date : Int) = 6 →
      ∃ r, get_weekly_sales start_date end_date db = .ok r) := by
  refine ⟨fun h1 => ?_, fun h1 h2 => ?_, fun h1 h2 h3 => ?_, fun h1 h2 h3 => ?_⟩
  · simp [get_weekly_sales, h1]
  · simp [get_weekly_sales, h1, h2]
  · simp [get_weekly_sales, h1, h2, h3]
  · have hok : get_weekly_sales start_date end_date db =
        .ok (ordered_days.map (fun day =>
          (day, weekdayTotal (groupByDate (salesBetween db start_date end_date)) day))) := by
      simp [get_weekly_sales, h1, h2, h3]
    exact ⟨_, hok⟩

/-- Claim C2 witness: a Monday start date is rejected with the first message. -/
theorem get_weekly_sales_validation_witness :
    isoweekday ⟨2024, 6, 3⟩ ≠ 7 ∧
    get_weekly_sales ⟨2024, 6, 3⟩ ⟨2024, 6, 8⟩ emptyStore =
      .error (.http 400 ("Start date must be a Sunday")) :=
  ⟨by decide,
   (get_weekly_sales_validation ⟨2024, 6, 3⟩ ⟨2024, 6, 8⟩ emptyStore).1 (by decide)⟩

/-- Claim C6: `deleteProduct` fails with 404 when no product has the id (store
unchanged); fails with the reference-conflict error (HTTP 400, "Cannot delete:
Product is used in sales records") when some sale references the product, the
store is unchanged and the product is still queryable; otherwise succeeds and
removes the product. -/
theorem delete_product_spec (product_id : Nat) (db : Store) :
    ((∀ p ∈ db.products, p.id ≠ product_id) →
      delete_product product_id db = (.error (.http 404 ("Product not found")), db)) ∧
    ((∃ p ∈ db.products, p.id = product_id) →
      (∃ s ∈ db.sales, s.product_id = product_id) →
      delete_product product_id db =
        (.error (.http 400 ("Cannot delete: Product is used in sales records")), db) ∧
      (∃ q ∈ (delete_product product_id db).2.products, q.id = product_id)) ∧
    ((∃ p ∈ db.products, p.id = product_id) →
      (∀ s ∈ db.sales, s.product_id ≠ product_id) →
      delete_product product_id db =
        (.ok ("Product deleted successfully"),
         { db with products := db.products.filter (fun q => !(q.id == product_id)) }) ∧
      (∀ q ∈ (delete_product product_id db).2.products, q.id ≠ product_id)) := by
  refine ⟨fun h => ?_, fun hp hs => ?_, fun hp hs => ?_⟩
  · have hf : db.products.find? (fun p => p.id == product_id) = none :=
      List.find?_eq_none.mpr (fun p hmem => by simpa using h p hmem)
    simp [delete_product, hf]
  · rcases hp with ⟨p, hpmem, hpid⟩
    rcases hs with ⟨s, hsmem, hsid⟩
    have hq' : ∃ q, db.products.find? (fun p => p.id == product_id) = some q :=
      Option.isSome_iff_exists.mp (List.find?_isSome.mpr ⟨p, hpmem, by simpa using hpid⟩)
    rcases hq' with ⟨q, hq⟩
    have ht' : ∃ t, db.sales.find? (fun s => s.product_id == product_id) = some t :=
      Option.isSome_iff_exists.mp (List.find?_isSome.mpr ⟨s, hsmem, by simpa using hsid⟩)
    rcases ht' with ⟨t, ht⟩
    refine ⟨by simp [delete_product, hq, ht], ?_⟩
    have h2 : (delete_product product_id db).2 = db := by simp [delete_product, hq, ht]
    rw [h2]
    exact ⟨p, hpmem, hpid⟩
  · rcases hp with ⟨p, hpmem, hpid⟩
    have hq' : ∃ q, db.products.find? (fun p => p.id == product_id) = some q :=
      Option.isSome_iff_exists.mp (List.find?_isSome.mpr ⟨p, hpmem, by simpa using hpid⟩)
    rcases hq' with ⟨q, hq⟩
    have ht : db.sales.find? (fun s => s.product_id == product_id) = none :=
      List.find?_eq_none.mpr (fun s hmem => by simpa using hs s hmem)
    refine ⟨by simp [delete_product, hq, ht], ?_⟩
    have h2 : (delete_product product_id db).2.products
        = db.products.filter (fun q => !(q.id == product_id)) := by
      simp [delete_product, hq, ht]
    rw [h2]
    intro r hr
    have := (List.mem_filter.mp hr).2
    simpa using this

/-- Claim C6 witness: deleting product 2 of `exampleStore2` with its sale
removed is the success case; deleting product 1 (which has a sale) conflicts. -/
theorem delete_product_spec_witness :
    ((∃ p ∈ exampleStore2.products, p.id = 1) ∧
     (∃ s ∈ exampleStore2.sales, s.product_id = 1) ∧
     delete_product 1 exampleStore2 =
       (.error (.http 400 ("Cannot delete: Product is used in sales records")),
        exampleStore2)) ∧
    ((∀ p ∈ exampleStore.products, p.id ≠ 7) ∧
     delete_product 7 exampleStore =
       (.error (.http 404 ("Product not found")), exampleStore)) :=
  ⟨⟨by decide, by decide,
    (((delete_product_spec 1 exampleStore2).2.1 (by decide) (by decide)).1)⟩,
   ⟨by decide, (delete_product_spec 7 exampleStore).1 (by decide)⟩⟩

/-- Claim C7: `createSale` fails with 404 and leaves the store unchanged when
the referenced product does not exist; otherwise it persists the sale with
the server-assigned id, storing the caller-supplied `total_price` as given. -/
theorem create_sale_spec (sale : SalesCreate) (db : Store) :
    ((∀ p ∈ db.products, p.id ≠ sale.product_id) →
      create_sale sale db = (.error (.http 404 ("Product not found")), db)) ∧
    ((∃ p ∈ db.products, p.id = sale.product_id) →
      create_sale sale db =
        (.ok { id := db.next_sale_id
               name := sale.name
               product_id := sale.product_id
               quantity := sale.quantity
               total_price := sale.total_price
               date := sale.date },
         { db with
             sales := db.sales ++
               [{ id := db.next_sale_id
                  name := sale.name
                  product_id := sale.product_id
                  quantity := sale.quantity
                  total_price := sale.total_price
                  date := sale.date }]
             next_sale_id := db.next_sale_id + 1 })) := by
  refine ⟨fun h => ?_, fun hp => ?_⟩
  · have hf : db.products.find? (fun p => p.id == sale.product_id) = none :=
      List.find?_eq_none.mpr (fun p hmem => by simpa using h p hmem)
    simp [create_sale, hf]
  · rcases hp with ⟨p, hpmem, hpid⟩
    have hq' : ∃ q, db.products.find? (fun p => p.id == sale.product_id) = some q :=
      Option.isSome_iff_exists.mp (List.find?_isSome.mpr ⟨p, hpmem, by simpa using hpid⟩)
    rcases hq' with ⟨q, hq⟩
    simp [create_sale, hq]

/-- Claim C7 witness: a sale referencing the missing product 9 is rejected
with the store unchanged, and a sale referencing product 1 of the example
store is persisted with the caller's total_price. -/
theorem create_sale_spec_witness :
    ((∀ p ∈ exampleStore.products, p.id ≠ 9) ∧
     create_sale ⟨"n", 9, 1, ⟨2024, 6, 3⟩, 77⟩ exampleStore =
       (.error (.http 404 ("Product not found")), exampleStore)) ∧
    ((∃ p ∈ exampleStore.products, p.id = 1) ∧
     create_sale ⟨"n", 1, 2, ⟨2024, 6, 3⟩, 77⟩ exampleStore =
       (.ok { id := 2, name := "n", product_id := 1, quantity := 2,
              total_price := 77, date := ⟨2024, 6, 3⟩ },
        { exampleStore with
            sales := exampleStore.sales ++
              [{ id := 2, name := "n", product_id := 1, quantity := 2,
                 total_price := 77, date := ⟨2024, 6, 3⟩ }]
            next_sale_id := 3 })) :=
  ⟨⟨by decide, (create_sale_spec ⟨"n", 9, 1, ⟨2024, 6, 3⟩, 77⟩ exampleStore).1 (by decide)⟩,
   ⟨by decide, (create_sale_spec ⟨"n", 1, 2, ⟨2024, 6, 3⟩, 77⟩ exampleStore).2 (by decide)⟩⟩

/-- Claim C10: for any month outside 1..12 the monthly route raises the
uncaught `IllegalMonthError` from `calendar.monthrange` — it neither returns
a bucketed result nor fails with an `HTTPException` (400 bad request). -/
theorem get_monthly_sales_invalid_month (year month : Int) (db : Store)
    (h : month < 1 ∨ 12 < month) :
    get_monthly_sales year month db = .error (.pythonError ("IllegalMonthError")) ∧
    (∀ r, get_monthly_sales year month db ≠ .ok r) ∧
    (∀ st d, get_monthly_sales year month db ≠ .error (.http st d)) := by
  have hb : (month < 1 || 12 < month) = true := by
    rcases h with h | h <;> simp [h]
  have hm : monthrange_days year month = .error (.pythonError ("IllegalMonthError")) := by
    unfold monthrange_days
    simp [hb]
  refine ⟨?_, ?_, ?_⟩ <;> simp [get_monthly_sales, hm]

/-- Claim C10 witness: month 13 surfaces the uncaught exception. -/
theorem get_monthly_sales_invalid_month_witness :
    ((13 : Int) < 1 ∨ (12 : Int) < 13) ∧
    get_monthly_sales 2024 13 emptyStore = .error (.pythonError ("IllegalMonthError")) :=
  ⟨by decide, (get_monthly_sales_invalid_month 2024 13 emptyStore (by decide)).1⟩

attribute [irreducible] dayAbbr

/-- Claim C3: for a valid Sunday-to-Saturday pair the weekly route returns
exactly 7 buckets in fixed Sun → Sat order, empty buckets carry total 0, and
the bucket totals sum to the sum of total_price over all sales whose date
lies in the inclusive range. -/
theorem get_weekly_sales_buckets (start_date end_date : PyDate) (db : Store)
    (h1 : isoweekday start_date = 7) (h2 : isoweekday end_date = 6)
    (h3 : (toordinal end_date : Int) - (toordinal start_date : Int) = 6) :
    ∃ r, get_weekly_sales start_date end_date db = .ok r ∧
      r.map Prod.fst = ordered_days ∧
      r.length = 7 ∧
      (r.map Prod.snd).sum = sumTotal (salesBetween db start_date end_date) ∧
      (∀ day total, (day, total) ∈ r →
        (salesBetween db start_date end_date).filter (fun s => dayAbbr s.date == day) = [] →
        total = 0) := by
  refine ⟨ordered_days.map (fun day =>
      (day, weekdayTotal (groupByDate (salesBetween db start_date end_date)) day)),
    ?_, ?_, ?_, ?_, ?_⟩
  · simp [get_weekly_sales, h1, h2, h3]
  · simp [List.map_map, Function.comp_def]
  · simp [ordered_days]
  · rw [List.map_map]
    have hmap : ordered_days.map
          (Prod.snd ∘ fun day =>
            (day, weekdayTotal (groupByDate (salesBetween db start_date end_date)) day))
        = ordered_days.map (fun day =>
            (((groupByDate (salesBetween db start_date end_date)).filter
                (fun g => dayAbbr g.1 == day)).map Prod.snd).sum) := by
      refine List.map_congr_left (fun day _ => ?_)
      simp [Function.comp_def, weekdayTotal_eq_sum]
    rw [hmap]
    rw [sum_filter_partition (fun g => dayAbbr g.1) Prod.snd
      (fun day g => dayAbbr g.1 == day) (fun day g => by simp)
      (groupByDate (salesBetween db start_date end_date)) ordered_days
      (by simp [ordered_days]) (fun g _ => dayAbbr_mem g.1)]
    exact groupByDate_snd_sum (salesBetween db start_date end_date)
  · intro day total hmem hempty
    rcases List.mem_map.mp hmem with ⟨day', hday', heq⟩
    rw [Prod.mk.injEq] at heq
    obtain ⟨rfl, rfl⟩ := heq
    rw [weekdayTotal_eq_sum]
    have hnil : (groupByDate (salesBetween db start_date end_date)).filter
        (fun g => dayAbbr g.1 == day') = [] := by
      apply List.filter_eq_nil_iff.mpr
      intro g hg hgd
      rcases (groupByDate_mem hg).1 with ⟨s, hs, hsd⟩
      have hsl : s ∈ (salesBetween db start_date end_date).filter
          (fun s => dayAbbr s.date == day') :=
        List.mem_filter.mpr ⟨hs, by rw [hsd]; exact hgd⟩
      rw [hempty] at hsl
      simp at hsl
    rw [hnil]
    rfl

/-- Claim C3 witness: the spec's worked example over
`weeklyTotals(2024-06-02, 2024-06-08)`. -/
theorem get_weekly_sales_buckets_witness :
    isoweekday ⟨2024, 6, 2⟩ = 7 ∧ isoweekday ⟨2024, 6, 8⟩ = 6 ∧
    (toordinal ⟨2024, 6, 8⟩ : Int) - (toordinal ⟨2024, 6, 2⟩ : Int) = 6 ∧
    (∃ r, get_weekly_sales ⟨2024, 6, 2⟩ ⟨2024, 6, 8⟩ exampleStore = .ok r ∧
      r.map Prod.fst = ordered_days ∧
      r.length = 7 ∧
      (r.map Prod.snd).sum = sumTotal (salesBetween exampleStore ⟨2024, 6, 2⟩ ⟨2024, 6, 8⟩) ∧
      (∀ day total, (day, total) ∈ r →
        (salesBetween exampleStore ⟨2024, 6, 2⟩ ⟨2024, 6, 8⟩).filter
          (fun s => dayAbbr s.date == day) = [] →
        total = 0)) :=
  ⟨by decide, by decide, by decide,
   get_weekly_sales_buckets ⟨2024, 6, 2⟩ ⟨2024, 6, 8⟩ exampleStore
     (by decide) (by decide) (by decide)⟩

/-- Claim C8: the week component of the summary sums total_price over the
Sunday-to-Saturday range containing today: the range start (computed as today
minus the days since the most recent Sunday, or today itself on a Sunday) is
always a Sunday ordinal on or before today with today at most 6 days after
it, and the range end is 6 days later; each of the four components is 0
whenever no rows match its filter. -/
theorem get_sales_summary_week_spec (today : PyDate) (db : Store) :
    (∀ d : PyDate, (toordinal d : Int) = week_start_ord today → isoweekday d = 7) ∧
    week_start_ord today ≤ (toordinal today : Int) ∧
    (toordinal today : Int) ≤ week_start_ord today + 6 ∧
    (get_sales_summary today db).week =
      sumTotal (db.sales.filter (fun s =>
        decide (week_start_ord today ≤ (toordinal s.date : Int)) &&
        decide ((toordinal s.date : Int) ≤ week_start_ord today + 6))) ∧
    (db.sales.filter (fun s => s.date == today) = [] →
      (get_sales_summary today db).today = 0) ∧
    (db.sales.filter (fun s =>
        decide (week_start_ord today ≤ (toordinal s.date : Int)) &&
        decide ((toordinal s.date : Int) ≤ week_start_ord today + 6)) = [] →
      (get_sales_summary today db).week = 0) ∧
    (db.sales.filter (fun s =>
        dateLe { today with day := 1 } s.date &&
        dateLe s.date { today with day := days_in_month (today.year : Int) today.month }) = [] →
      (get_sales_summary today db).month = 0) ∧
    (db.sales.filter (fun s =>
        dateLe { today with month := 1, day := 1 } s.date &&
        dateLe s.date { today with month := 12, day := 31 }) = [] →
      (get_sales_summary today db).year = 0) := by
  refine ⟨?_, ?_, ?_, ?_, ?_, ?_, ?_, ?_⟩
  · intro d hd
    simp only [week_start_ord, weekday] at hd
    unfold isoweekday weekday
    split at hd
    · rename_i h
      simp only [bne_iff_ne, ne_eq] at h
      omega
    · rename_i h
      simp only [bne_iff_ne, ne_eq, not_not] at h
      omega
  · simp only [week_start_ord, weekday]
    split
    · rename_i h
      simp only [bne_iff_ne, ne_eq] at h
      omega
    · omega
  · simp only [week_start_ord, weekday]
    split
    · rename_i h
      simp only [bne_iff_ne, ne_eq] at h
      omega
    · omega
  · simp [get_sales_summary]
  · intro h
    simp [get_sales_summary, h, sumTotal]
  · intro h
    simp [get_sales_summary, h, sumTotal]
  · intro h
    simp [get_sales_summary, h, sumTotal]
  · intro h
    simp [get_sales_summary, h, sumTotal]

/-- Claim C8 witness: for Wednesday 2024-06-05 the computed week start is
Sunday 2024-06-02, and on the empty store all four components are 0. -/
theorem get_sales_summary_week_spec_witness :
    (toordinal (⟨2024, 6, 2⟩ : PyDate) : Int) = week_start_ord ⟨2024, 6, 5⟩ ∧
    isoweekday ⟨2024, 6, 2⟩ = 7 ∧
    (get_sales_summary ⟨2024, 6, 5⟩ emptyStore).today = 0 ∧
    (get_sales_summary ⟨2024, 6, 5⟩ emptyStore).week = 0 ∧
    (get_sales_summary ⟨2024, 6, 5⟩ emptyStore).month = 0 ∧
    (get_sales_summary ⟨2024, 6, 5⟩ emptyStore).year = 0 :=
  ⟨by decide,
   (get_sales_summary_week_spec ⟨2024, 6, 5⟩ emptyStore).1 ⟨2024, 6, 2⟩ (by decide),
   (get_sales_summary_week_spec ⟨2024, 6, 5⟩ emptyStore).2.2.2.2.1 (by rfl),
   (get_sales_summary_week_spec ⟨2024, 6, 5⟩ emptyStore).2.2.2.2.2.1 (by rfl),
   (get_sales_summary_week_spec ⟨2024, 6, 5⟩ emptyStore).2.2.2.2.2.2.1 (by rfl),
   (get_sales_summary_week_spec ⟨2024, 6, 5⟩ emptyStore).2.2.2.2.2.2.2 (by rfl)⟩

/-- One assigning-fold bucket over a `GROUP BY key` result: when the bucket
predicate `p` identifies at most one key occurring in `l`, the bucket value
is the sum of `total_price` over the rows whose key satisfies `p`. -/
theorem assign_bucket_general {κ : Type _} [BEq κ] [LawfulBEq κ] [DecidableEq κ]
    (l : List Sale) (key : Sale → κ) (p : κ → Bool)
    (huniq : ∀ j₁ ∈ l.map key, ∀ j₂ ∈ l.map key, p j₁ = true → p j₂ = true → j₁ = j₂) :
    (((l.map key).dedup).map (fun k => (k, sumTotal (l.filter (fun s => key s == k))))).foldl
        (fun acc g => if p g.1 then g.2 else acc) 0
      = sumTotal (l.filter (fun s => p (key s))) := by
  have hsub : (((l.map key).dedup).map
        (fun k => (k, sumTotal (l.filter (fun s => key s == k))))).filter (fun g => p g.1)
      = (((l.map key).dedup).filter p).map
          (fun k => (k, sumTotal (l.filter (fun s => key s == k)))) := by
    rw [List.filter_map]
    exact congrArg _ (List.filter_congr fun k hk => rfl)
  have hlen1 : (((l.map key).dedup).filter p).length ≤ 1 :=
    filter_length_le_one p _ (List.nodup_dedup _)
      (fun a ha b hb hpa hpb =>
        huniq a (List.mem_dedup.mp ha) b (List.mem_dedup.mp hb) hpa hpb)
  refine (foldl_assign_single (fun g => p g.1) (fun g => g.2)
    (((l.map key).dedup).map (fun k => (k, sumTotal (l.filter (fun s => key s == k)))))
    (by rw [hsub, List.length_map]; exact hlen1)).trans ?_
  rw [hsub]
  cases hfk : ((l.map key).dedup).filter p with
  | nil =>
    have hnil : l.filter (fun s => p (key s)) = [] := by
      apply List.filter_eq_nil_iff.mpr
      intro s hs hps
      have hk : key s ∈ ((l.map key).dedup).filter p :=
        List.mem_filter.mpr ⟨List.mem_dedup.mpr (List.mem_map_of_mem _ hs), hps⟩
      rw [hfk] at hk
      simp at hk
    rw [hnil]
    simp [sumTotal]
  | cons n t =>
    have hlen2 : t = [] := by
      have hc := hfk ▸ hlen1
      simpa using hc
    subst hlen2
    have hn : n ∈ ((l.map key).dedup).filter p := by rw [hfk]; simp
    have hpn : p n = true := (List.mem_filter.mp hn).2
    have hcong : ∀ s ∈ l, (p (key s)) = (key s == n) := by
      intro s hs
      by_cases h : key s = n
      · simp [h, hpn]
      · have hnp : ¬ p (key s) = true := by
          intro hps
          have hk : key s ∈ ((l.map key).dedup).filter p :=
            List.mem_filter.mpr ⟨List.mem_dedup.mpr (List.mem_map_of_mem _ hs), hps⟩
          rw [hfk] at hk
          simp at hk
          exact h hk
        simp only [Bool.not_eq_true] at hnp
        rw [hnp]
        exact (beq_eq_false_iff_ne.mpr h).symm
    rw [List.filter_congr hcong]
    simp [sumTotal]

theorem month_abbr_nodup : month_abbr.Nodup := by
  simp [month_abbr]

/-- On months 1..12 the abbreviation lookup determines the month: no other
index (in or out of range) produces the same string. -/
theorem month_abbr_getD_inj (m : Nat) (h1 : 1 ≤ m) (h2 : m ≤ 12) (j : Nat)
    (h : month_abbr.getD j ("") = month_abbr.getD m ("")) : j = m := by
  have hm : m < month_abbr.length := by simp [month_abbr]; omega
  by_cases hj : j < month_abbr.length
  · rw [List.getD_eq_getElem _ _ hj, List.getD_eq_getElem _ _ hm] at h
    exact (month_abbr_nodup.getElem_inj_iff).mp h
  · exfalso
    rw [List.getD_eq_default _ _ (by omega), List.getD_eq_getElem _ _ hm] at h
    have hm13 : m < 13 := by simpa [month_abbr] using hm
    interval_cases m <;> simp [month_abbr] at h

/-- The month bucket of the yearly route labelled by month `m`'s abbreviation
holds the sum over the rows of month `m`. -/
theorem month_total_val_eq (l : List Sale) (m : Nat) (h1 : 1 ≤ m) (h2 : m ≤ 12) :
    month_total_val (groupByMonth l) (month_abbr.getD m (""))
      = sumTotal (l.filter (fun s => s.date.month == m)) := by
  have huniq : ∀ j₁ ∈ l.map (fun s => s.date.month), ∀ j₂ ∈ l.map (fun s => s.date.month),
      (month_abbr.getD j₁ ("") == month_abbr.getD m ("")) = true →
      (month_abbr.getD j₂ ("") == month_abbr.getD m ("")) = true → j₁ = j₂ := by
    intro j₁ _ j₂ _ hp₁ hp₂
    have e₁ : j₁ = m := month_abbr_getD_inj m h1 h2 j₁ (by simpa using hp₁)
    have e₂ : j₂ = m := month_abbr_getD_inj m h1 h2 j₂ (by simpa using hp₂)
    rw [e₁, e₂]
  have h := assign_bucket_general l (fun s => s.date.month)
    (fun n => month_abbr.getD n ("") == month_abbr.getD m ("")) huniq
  have hdef : month_total_val (groupByMonth l) (month_abbr.getD m (""))
      = (((l.map (fun s => s.date.month)).dedup).map
          (fun k => (k, sumTotal (l.filter (fun s => s.date.month == k))))).foldl
          (fun acc g =>
            if month_abbr.getD g.1 ("") == month_abbr.getD m ("") then g.2 else acc) 0 := rfl
  rw [hdef, h]
  refine congrArg sumTotal (List.filter_congr fun s hs => ?_)
  show (month_abbr.getD s.date.month ("") == month_abbr.getD m ("")) = (s.date.month == m)
  by_cases hsm : s.date.month = m
  · simp [hsm]
  · have hne : month_abbr.getD s.date.month ("") ≠ month_abbr.getD m ("") :=
      fun hc => hsm (month_abbr_getD_inj m h1 h2 _ hc)
    rw [beq_eq_false_iff_ne.mpr hne, beq_eq_false_iff_ne.mpr hsm]

/-- Claim C5: `yearlyTotals` fails with 400 "Invalid year" exactly when
year < 1900 or year > 2100 (1899/2101 rejected, 1900/2100 accepted), and for
accepted years returns the 12 month buckets in fixed Jan → Dec order, each
holding the year's sum for that calendar month (0 when no rows match). -/
theorem get_yearly_sales_spec (year : Int) (db : Store) :
    ((year < 1900 ∨ 2100 < year) →
      get_yearly_sales year db = .error (.http 400 ("Invalid year"))) ∧
    (1900 ≤ year → year ≤ 2100 →
      get_yearly_sales year db =
        .ok ((List.range' 1 12).map (fun m =>
          (month_abbr.getD m (""),
           sumTotal (db.sales.filter (fun s =>
             ((s.date.year : Int) == year) && (s.date.month == m))))))) := by
  constructor
  · intro h
    have hb : (year < 1900 || 2100 < year) = true := by
      rcases h with h | h <;> simp [h]
    simp [get_yearly_sales, hb]
  · intro ha hb
    have hcond : (year < 1900 || 2100 < year) = false := by
      simp only [Bool.or_eq_false_iff, decide_eq_false_iff_not, not_lt]
      exact ⟨ha, hb⟩
    have hmonths : ordered_months
        = (List.range' 1 12).map (fun m => month_abbr.getD m ("")) := by rfl
    simp only [get_yearly_sales, hcond, Bool.false_eq_true, if_false]
    rw [hmonths, List.map_map]
    refine congrArg Except.ok (List.map_congr_left fun m hm => ?_)
    have hmr : 1 ≤ m ∧ m < 1 + 12 := List.mem_range'_1.mp hm
    have heq : month_total_val
        (groupByMonth (db.sales.filter (fun s => (s.date.year : Int) == year)))
        (month_abbr.getD m (""))
        = sumTotal (db.sales.filter (fun s =>
            ((s.date.year : Int) == year) && (s.date.month == m))) := by
      rw [month_total_val_eq _ m hmr.1 (by omega), List.filter_filter]
      exact congrArg sumTotal (List.filter_congr fun s hs => Bool.and_comm _ _)
    exact congrArg _ heq

/-- Claim C5 witness: 1899 is rejected; 1900 is accepted with the 12 zero
buckets on an empty store. -/
theorem get_yearly_sales_spec_witness :
    ((1899 : Int) < 1900 ∨ (2100 : Int) < 1899) ∧
    get_yearly_sales 1899 emptyStore = .error (.http 400 ("Invalid year")) ∧
    ((1900 : Int) ≤ 1900 ∧ (1900 : Int) ≤ 2100) ∧
    get_yearly_sales 1900 emptyStore =
      .ok ((List.range' 1 12).map (fun m =>
        (month_abbr.getD m (""),
         sumTotal (emptyStore.sales.filter (fun s =>
           ((s.date.year : Int) == 1900) && (s.date.month == m)))))) :=
  ⟨Or.inl (by decide),
   (get_yearly_sales_spec 1899 emptyStore).1 (Or.inl (by decide)),
   ⟨by decide, by decide⟩,
   (get_yearly_sales_spec 1900 emptyStore).2 (by decide) (by decide)⟩

/-- A Python dict keyed by an initial key list gains no key from assignments
whose keys are already present. -/
theorem foldl_dict_insert_of_mem {β : Type _} (key : β → Nat) :
    ∀ (l : List β) (ks : List Nat), (∀ g ∈ l, key g ∈ ks) →
      l.foldl (fun ks g => if ks.contains (key g) then ks else ks ++ [key g]) ks = ks
  | [], _, _ => rfl
  | g :: l, ks, h => by
    have hc : ks.contains (key g) = true := by simpa using h g (by simp)
    simp only [List.foldl_cons, hc, if_true]
    exact foldl_dict_insert_of_mem key l ks (fun b hb => h b (by simp [hb]))

theorem day_totals_keys_eq (groups : List (PyDate × Rat)) (n : Nat)
    (h : ∀ g ∈ groups, g.1.day ∈ List.range' 1 n) :
    day_totals_keys groups n = List.range' 1 n := by
  unfold day_totals_keys
  exact foldl_dict_insert_of_mem (fun (g : PyDate × Rat) => g.1.day) groups (List.range' 1 n) h

theorem insertionSort_range' (s n : Nat) :
    (List.range' s n).insertionSort (· ≤ ·) = List.range' s n :=
  List.Sorted.insertionSort_eq
    ((List.pairwise_lt_range' s n).imp (fun h => le_of_lt h))

/-- The day bucket of the monthly route: when equal days force equal dates
(true once year and month are fixed), bucket `k` holds the day-`k` sum. -/
theorem day_total_val_eq (l : List Sale) (k : Nat)
    (hsame : ∀ s₁ ∈ l, ∀ s₂ ∈ l, s₁.date.day = s₂.date.day → s₁.date = s₂.date) :
    day_total_val (groupByDate l) k = sumTotal (l.filter (fun s => s.date.day == k)) := by
  have huniq : ∀ j₁ ∈ l.map (fun s => s.date), ∀ j₂ ∈ l.map (fun s => s.date),
      (j₁.day == k) = true → (j₂.day == k) = true → j₁ = j₂ := by
    intro j₁ hj₁ j₂ hj₂ hp₁ hp₂
    rcases List.mem_map.mp hj₁ with ⟨s₁, hs₁, rfl⟩
    rcases List.mem_map.mp hj₂ with ⟨s₂, hs₂, rfl⟩
    exact hsame s₁ hs₁ s₂ hs₂ (by rw [beq_iff_eq.mp hp₁, beq_iff_eq.mp hp₂])
  exact assign_bucket_general l (fun s => s.date) (fun d => d.day == k) huniq

/-- Claim C4: for a valid (year, month) pair and a store of valid dates, the
monthly route returns exactly `days_in_month` buckets (29 for 2024-02, 28 for
2023-02), labelled "1".."N" in ascending numeric order, each holding the sum
of total_price over the sales of that exact date (0 when none). -/
theorem get_monthly_sales_buckets (year month : Int) (db : Store)
    (h1 : 1 ≤ month) (h2 : month ≤ 12)
    (hv : ∀ s ∈ db.sales, ValidDate s.date) :
    get_monthly_sales year month db =
      .ok ((List.range' 1 (days_in_month year month.toNat)).map (fun k =>
        (toString k,
         sumTotal (db.sales.filter (fun s =>
           (s.date.day == k) &&
             (((s.date.year : Int) == year) && ((s.date.month : Int) == month))))))) := by
  have hok : monthrange_days year month = .ok (days_in_month year month.toNat) := by
    unfold monthrange_days
    have hcond : (month < 1 || 12 < month) = false := by
      simp only [Bool.or_eq_false_iff, decide_eq_false_iff_not, not_lt]
      exact ⟨h1, h2⟩
    simp only [hcond, Bool.false_eq_true, if_false]
  have hmem : ∀ s ∈ db.sales.filter
      (fun s => ((s.date.year : Int) == year) && ((s.date.month : Int) == month)),
      (s.date.year : Int) = year ∧ s.date.month = month.toNat ∧
        1 ≤ s.date.day ∧ s.date.day ≤ days_in_month year month.toNat := by
    intro s hs
    rcases List.mem_filter.mp hs with ⟨hsl, hcond⟩
    simp only [Bool.and_eq_true, beq_iff_eq] at hcond
    obtain ⟨hy, hmo⟩ := hcond
    obtain ⟨_, hm1, hm2, hd1, hd2⟩ := hv s hsl
    have hmonth : s.date.month = month.toNat := by omega
    refine ⟨hy, hmonth, hd1, ?_⟩
    have hdm : days_in_month year month.toNat = days_in_month (s.date.year : Int) s.date.month := by
      rw [hy, hmonth]
    rw [hdm]
    exact hd2
  have hkeys : day_totals_keys
      (groupByDate (db.sales.filter
        (fun s => ((s.date.year : Int) == year) && ((s.date.month : Int) == month))))
      (days_in_month year month.toNat)
      = List.range' 1 (days_in_month year month.toNat) := by
    apply day_totals_keys_eq
    intro g hg
    rcases (groupByDate_mem hg).1 with ⟨s, hs, hsd⟩
    have hb := hmem s hs
    rw [← hsd]
    exact List.mem_range'_1.mpr ⟨hb.2.2.1, by omega⟩
  simp only [get_monthly_sales, hok]
  rw [hkeys, insertionSort_range']
  refine congrArg Except.ok (List.map_congr_left fun k hk => ?_)
  refine congrArg (Prod.mk (toString k)) ?_
  have hsame : ∀ s₁ ∈ db.sales.filter
      (fun s => ((s.date.year : Int) == year) && ((s.date.month : Int) == month)),
      ∀ s₂ ∈ db.sales.filter
      (fun s => ((s.date.year : Int) == year) && ((s.date.month : Int) == month)),
      s₁.date.day = s₂.date.day → s₁.date = s₂.date := by
    intro s₁ hs₁ s₂ hs₂ hd
    have hb₁ := hmem s₁ hs₁
    have hb₂ := hmem s₂ hs₂
    have e1 : s₁.date.year = s₂.date.year := by omega
    have e2 : s₁.date.month = s₂.date.month := by omega
    calc s₁.date = ⟨s₁.date.year, s₁.date.month, s₁.date.day⟩ := rfl
      _ = ⟨s₂.date.year, s₂.date.month, s₂.date.day⟩ := by rw [e1, e2, hd]
      _ = s₂.date := rfl
  rw [day_total_val_eq _ k hsame, List.filter_filter]

/-- Claim C4 witness: February 2024 (leap year) yields the 29 zero buckets on
the empty store; the day counts for 2024-02 and 2023-02 are 29 and 28. -/
theorem get_monthly_sales_buckets_witness :
    (1 : Int) ≤ 2 ∧ (2 : Int) ≤ 12 ∧ (∀ s ∈ emptyStore.sales, ValidDate s.date) ∧
    get_monthly_sales 2024 2 emptyStore =
      .ok ((List.range' 1 (days_in_month 2024 (2 : Int).toNat)).map (fun k =>
        (toString k,
         sumTotal (emptyStore.sales.filter (fun s =>
           (s.date.day == k) &&
             (((s.date.year : Int) == 2024) && ((s.date.month : Int) == 2))))))) ∧
    days_in_month 2024 (2 : Int).toNat = 29 ∧ days_in_month 2023 2 = 28 :=
  ⟨by decide, by decide, by decide,
   get_monthly_sales_buckets 2024 2 emptyStore (by decide) (by decide) (by decide),
   by decide, by decide⟩

/-- With duplicate-free product ids and referential integrity, the per-key
sum over the joined rows equals the per-product sum over the sales table. -/
theorem joinList_filter_sum {M : Type _} [AddCommMonoid M]
    (ps : List Product) (hnd : (ps.map (fun p => p.id)).Nodup)
    (k : Nat × String) (pk : Product) (hpkmem : pk ∈ ps)
    (hpk1 : pk.id = k.1) (hpk2 : pk.product_name = k.2) (v : Sale → M) :
    ∀ (ss : List Sale), (∀ s ∈ ss, ∃ p ∈ ps, p.id = s.product_id) →
      (((joinList ps ss).filter (fun r => topKey r == k)).map (fun r => v r.1)).sum
        = ((ss.filter (fun s => s.product_id == k.1)).map v).sum
  | [], _ => by simp [joinList]
  | s :: ss, href => by
    rcases href s (by simp) with ⟨p, hpmem, hpid⟩
    have hfilter : ps.filter (fun q => q.id == s.product_id) = [p] := by
      rw [show s.product_id = p.id from hpid.symm]
      exact filter_eq_singleton_of_nodup_map (fun p => p.id) ps hnd p hpmem
    have hjoin : joinList ps (s :: ss) = (s, p) :: joinList ps ss := by
      unfold joinList
      rw [List.flatMap_cons, hfilter]
      rfl
    rw [hjoin]
    have hrest := joinList_filter_sum ps hnd k pk hpkmem hpk1 hpk2 v ss
      (fun b hb => href b (by simp [hb]))
    by_cases hs : s.product_id = k.1
    · have hpp : p = pk :=
        List.inj_on_of_nodup_map hnd hpmem hpkmem (by rw [hpid, hs, hpk1])
      have htk : topKey (s, p) = k := by
        calc topKey (s, p) = (s.product_id, p.product_name) := rfl
          _ = (k.1, k.2) := by rw [hs, hpp, hpk2]
          _ = k := rfl
      have e1 : (topKey (s, p) == k) = true := by rw [htk]; exact beq_self_eq_true k
      have e2 : (s.product_id == k.1) = true := beq_iff_eq.mpr hs
      simp only [List.filter_cons, e1, if_true, List.map_cons, List.sum_cons, hrest, e2]
    · have e1 : (topKey (s, p) == k) = false := by
        apply beq_eq_false_iff_ne.mpr
        intro hc
        exact hs (congrArg Prod.fst hc)
      have e2 : (s.product_id == k.1) = false := beq_eq_false_iff_ne.mpr hs
      simp only [List.filter_cons, e1, e2, Bool.false_eq_true, if_false, hrest]

/-- Claim C9: `topProducts` groups the sales by product (with its name from
the join), sums quantity and total_price per product, sorts descending by
total quantity and truncates to at most `limit` entries; with limit 1 over
two products of total quantities 10 and 7, only the quantity-10 product is
returned. -/
theorem get_top_products_spec :
    (∀ (db : Store) (limit : Nat),
      (db.products.map (fun p => p.id)).Nodup →
      (∀ s ∈ db.sales, ∃ p ∈ db.products, p.id = s.product_id) →
      List.Pairwise (fun a b => b.total_quantity ≤ a.total_quantity)
        (get_top_products db limit) ∧
      (get_top_products db limit).length ≤ limit ∧
      (∀ e ∈ get_top_products db limit,
        (∃ p ∈ db.products, p.id = e.product_id ∧ p.product_name = e.product_name) ∧
        e.total_quantity = ((db.sales.filter
          (fun s => s.product_id == e.product_id)).map (fun s => s.quantity)).sum ∧
        e.total_sales = sumTotal (db.sales.filter
          (fun s => s.product_id == e.product_id)))) ∧
    get_top_products exampleStore2 1 =
      [{ product_id := 1, product_name := "A", total_quantity := 10, total_sales := 100 }] := by
  constructor
  · intro db limit hnd href
    letI : IsTotal TopEntry (fun a b => b.total_quantity ≤ a.total_quantity) :=
      ⟨fun a b => le_total b.total_quantity a.total_quantity⟩
    letI : IsTrans TopEntry (fun a b => b.total_quantity ≤ a.total_quantity) :=
      ⟨fun a b c hab hbc => le_trans hbc hab⟩
    refine ⟨?_, ?_, ?_⟩
    · exact List.Pairwise.sublist (List.take_sublist _ _)
        (List.sorted_insertionSort _ (topGroups db))
    · exact List.length_take_le _ _
    · intro e he
      have hmem : e ∈ topGroups db := by
        have h1 : e ∈ (topGroups db).insertionSort
            (fun a b => b.total_quantity ≤ a.total_quantity) :=
          List.mem_of_mem_take he
        exact (List.mem_insertionSort _).mp h1
      rcases List.mem_map.mp hmem with ⟨k, hk, hke⟩
      have hkrow : ∃ r ∈ joinRows db, topKey r = k := by
        rcases List.mem_map.mp (List.mem_dedup.mp hk) with ⟨r, hr, hrk⟩
        exact ⟨r, hr, hrk⟩
      rcases hkrow with ⟨r, hr, hrk⟩
      rcases List.mem_flatMap.mp hr with ⟨s, hsmem, hrs⟩
      rcases List.mem_map.mp hrs with ⟨p, hprod, hrp⟩
      rcases List.mem_filter.mp hprod with ⟨hpmem, hpids⟩
      have hpid : p.id = s.product_id := beq_iff_eq.mp hpids
      have hk1 : k.1 = s.product_id := by rw [← hrk, ← hrp]; rfl
      have hk2 : k.2 = p.product_name := by rw [← hrk, ← hrp]; rfl
      have he1 : e.product_id = k.1 := by rw [← hke]
      have he2 : e.product_name = k.2 := by rw [← hke]
      refine ⟨⟨p, hpmem, by rw [he1, hk1, hpid], by rw [he2, hk2]⟩, ?_, ?_⟩
      · rw [show e.total_quantity = (((joinRows db).filter (fun r => topKey r == k)).map
            (fun r => r.1.quantity)).sum from by rw [← hke],
          show joinRows db = joinList db.products db.sales from rfl,
          joinList_filter_sum db.products hnd k p hpmem (by rw [hpid, hk1]) (by rw [hk2])
            (fun s => s.quantity) db.sales href,
          he1]
      · rw [show e.total_sales = (((joinRows db).filter (fun r => topKey r == k)).map
            (fun r => r.1.total_price)).sum from by rw [← hke],
          show joinRows db = joinList db.products db.sales from rfl,
          joinList_filter_sum db.products hnd k p hpmem (by rw [hpid, hk1]) (by rw [hk2])
            (fun s => s.total_price) db.sales href,
          he1]
        rfl
  · with_unfolding_all rfl

/-- Claim C9 witness: the general part applied to the two-product example
store with limit 2. -/
theorem get_top_products_spec_witness :
    ((exampleStore2.products.map (fun p => p.id)).Nodup ∧
     (∀ s ∈ exampleStore2.sales, ∃ p ∈ exampleStore2.products, p.id = s.product_id)) ∧
    (List.Pairwise (fun a b => b.total_quantity ≤ a.total_quantity)
        (get_top_products exampleStore2 2) ∧
      (get_top_products exampleStore2 2).length ≤ 2 ∧
      (∀ e ∈ get_top_products exampleStore2 2,
        (∃ p ∈ exampleStore2.products,
          p.id = e.product_id ∧ p.product_name = e.product_name) ∧
        e.total_quantity = ((exampleStore2.sales.filter
          (fun s => s.product_id == e.product_id)).map (fun s => s.quantity)).sum ∧
        e.total_sales = sumTotal (exampleStore2.sales.filter
          (fun s => s.product_id == e.product_id)))) :=
  ⟨⟨by decide, by decide⟩,
   get_top_products_spec.1 exampleStore2 2 (by decide) (by decide)⟩

end ChotuDairy
